import Mathlib

/-
Verification of the curator synchronization-and-orchestration engine:
a shallow embedding of `src/sthree/bucket.go` (the retrying store handle)
and `src/repobuilder/job.go` (the repository build job), with theorems
about the spec's claims.

Remote I/O is modelled by passing the remote store's responses in as
explicit arguments (response functions / page lists), and every remote
call a handle issues is recorded in an explicit trace, so that claims
about "which remote calls are made" are statable and decidable.
-/

namespace Curator

/-- AWS credential/region pair held by a bucket handle
(`AWSConnectionConfiguration`, bucket.go:50-58).  The payloads are opaque
to the handle, so they are modelled as strings. -/
structure AWSConnectionConfiguration where
  auth : String
  region : String
  deriving DecidableEq, Repr

/-- The store handle (`Bucket`, bucket.go:62-76).  The `open` field is
named `openFlag` (`open` is a Lean keyword).  The live `*s3.S3`,
`*s3.Bucket`, registry and queue pointers are connection/worker state
derived from the other fields; remote responses are passed to each
operation explicitly instead. -/
structure Bucket where
  newFilePermission : String
  openFlag : Bool
  dryRun : Bool
  credentials : AWSConnectionConfiguration
  name : String
  numJobs : Int
  numRetries : Int
  deriving DecidableEq, Repr

/-- `NewBucket` (bucket.go:81-92): derives a new named handle from an
existing one.  Note the source hardcodes `numRetries: 20` rather than
copying `b.numRetries`; fields absent from the Go struct literal
(`open`, `dryRun`) take their zero value `false`.  Registration in the
process-wide registry is bookkeeping outside this model. -/
def Bucket.NewBucket (b : Bucket) (name : String) : Bucket :=
  { name := name
    newFilePermission := b.newFilePermission
    credentials := b.credentials
    numJobs := b.numJobs
    numRetries := 20
    openFlag := false
    dryRun := false }

/-- `Open` (bucket.go:180-198): a no-op when already open, otherwise
marks the handle open (connection/queue creation is abstracted; the
queue start is modelled as succeeding). -/
def Bucket.Open (b : Bucket) : Bucket :=
  if b.openFlag then b else { b with openFlag := true }

/-- `Clone` (bucket.go:112-130): fresh handle replicating name,
permission, credentials, job and retry counts; the Go struct literal
leaves `dryRun` at its zero value `false`.  If the source is open the
clone is opened before being returned. -/
def Bucket.Clone (b : Bucket) : Bucket :=
  let clone : Bucket :=
    { name := b.name
      openFlag := false
      newFilePermission := b.newFilePermission
      credentials := b.credentials
      numJobs := b.numJobs
      numRetries := b.numRetries
      dryRun := false }
  if b.openFlag then clone.Open else clone

/-- `DryRunClone` (bucket.go:98-107): `Clone`, then mark the result
dry-run. -/
def Bucket.DryRunClone (b : Bucket) : Bucket :=
  { b.Clone with dryRun := true }

/-- `SetNumRetries` (bucket.go:167-174): rejects only negative values
(with a message claiming the count must be larger than 0) and otherwise
stores the new count. -/
def Bucket.SetNumRetries (b : Bucket) (n : Int) : Except String Bucket :=
  if n < 0 then .error s!"numRetries={n}, must be larger than 0"
  else .ok { b with numRetries := n }

/-- A remote call issued by the handle against the underlying store:
either a single-key delete (`bucket.Del`) or a bulk delete
(`bucket.DelMulti`). -/
inductive RemoteCall where
  | del (key : String)
  | delMulti (keys : List String)
  deriving DecidableEq, Repr

/-- The prefix normalization done at the top of `list` (bucket.go:222-224):
a non-empty prefix without a trailing slash gets one appended. -/
def normalizePrefix (p : String) : String :=
  if p != "" && !p.endsWith "/" then p ++ "/" else p

/-- The pagination loop of `list` (bucket.go:225-245), with the
underlying store's successive `bucket.List` page responses for the
(normalized) prefix given as a list: an `.ok` page contributes its keys
and the loop continues; running out of pages is the store reporting "not
truncated".  An `.error` page is passed to `grip.Error` (logged) and the
loop `break`s: the listing is silently truncated and no error is
surfaced to the caller. -/
def listModel : List (Except String (List String)) → List String
  | [] => []
  | .ok page :: rest => page ++ listModel rest
  | .error _ :: _ => []

/-- The batching loop of `deleteGroup` (bucket.go:481-531), one state per
iteration: `toDelete`/`count` are the accumulated batch, the list
argument is the keys still to be pulled from the channel.  When `count`
reaches 1000 the source, in non-dry-run mode, sends the batch and
*returns its (possibly nil) result immediately* (bucket.go:494); the
counter-reset below that send is reached only in dry-run mode, in which
case the reset and the next channel pull are fused into one recursive
step here.  `delMulti` is the store's response to a bulk delete; the
second component of the result is the list of bulk-delete batches
actually sent to the store. -/
def deleteGroupLoop (dryRun : Bool) (delMulti : List String → Option String)
    (toDelete : List String) (count : Nat) :
    List String → Option String × List (List String)
  | [] =>
    if count == 1000 then
      if dryRun then (none, [])
      else (delMulti toDelete, [toDelete])
    else if toDelete.isEmpty then (none, [])
    else if dryRun then (none, [])
    else (delMulti toDelete, [toDelete])
  | k :: rest =>
    if count == 1000 then
      if dryRun then deleteGroupLoop dryRun delMulti [k] 1 rest
      else (delMulti toDelete, [toDelete])
    else deleteGroupLoop dryRun delMulti (toDelete ++ [k]) (count + 1) rest

/-- `deleteGroup` (bucket.go:481-531) over the full key sequence drained
from its channel. -/
def deleteGroupModel (dryRun : Bool) (delMulti : List String → Option String)
    (items : List String) : Option String × List (List String) :=
  deleteGroupLoop dryRun delMulti [] 0 items

/-- `Delete` (bucket.go:400-405): logs and then unconditionally issues
the underlying single-key `Del` call, wrapping any store error; the
`dryRun` flag is never consulted. -/
def Bucket.Delete (b : Bucket) (delResp : String → Option String)
    (path : String) : Option String × List RemoteCall :=
  ((delResp path).map fun e => s!"deleting {path} from {b.name}: {e}",
    [RemoteCall.del path])

/-- `DeleteMany` (bucket.go:409-439).  `store` is the full listing of the
bucket that `contents("")` returns; a requested path absent from it is
only warned about and skipped.  With exactly one path the listing is
bypassed: dry-run returns immediately, otherwise the single-key `Delete`
is issued directly. -/
def Bucket.DeleteMany (b : Bucket) (store : List String)
    (delResp : String → Option String) (delMultiResp : List String → Option String)
    (paths : List String) : Option String × List RemoteCall :=
  if paths.length == 1 then
    if b.dryRun then (none, [])
    else b.Delete delResp (paths.headD "")
  else
    let toDelete := paths.filter fun p => store.elem p
    let r := deleteGroupModel b.dryRun delMultiResp toDelete
    (r.1, r.2.map RemoteCall.delMulti)

/-- `DeletePrefix` (bucket.go:443-445): `deleteGroup` over the listing of
the prefix, where `pages` are the underlying store's page responses for
the prefix (see `listModel`). -/
def Bucket.DeletePrefix (b : Bucket) (delMultiResp : List String → Option String)
    (pages : List (Except String (List String))) : Option String × List RemoteCall :=
  let r := deleteGroupModel b.dryRun delMultiResp (listModel pages)
  (r.1, r.2.map RemoteCall.delMulti)

/-- Regular expressions, covering the constructs appearing in the spec's
delete-matching claims.  `DeleteMatching` (bucket.go:447-453) compiles
its expression with Go's `regexp` package; the compiled automaton is
modelled by this syntax with the standard language semantics (via
Brzozowski derivatives below). -/
inductive Regex where
  | bot
  | eps
  | char (c : Char)
  | anyChar
  | alt (r s : Regex)
  | cat (r s : Regex)
  | star (r : Regex)
  deriving DecidableEq, Repr

/-- Does the regular expression accept the empty string? -/
def Regex.nullable : Regex → Bool
  | .bot => false
  | .eps => true
  | .char _ => false
  | .anyChar => false
  | .alt r s => r.nullable || s.nullable
  | .cat r s => r.nullable && s.nullable
  | .star _ => true

/-- Brzozowski derivative of a regular expression by one character. -/
def Regex.deriv : Regex → Char → Regex
  | .bot, _ => .bot
  | .eps, _ => .bot
  | .char c, a => if a = c then .eps else .bot
  | .anyChar, _ => .eps
  | .alt r s, a => .alt (r.deriv a) (s.deriv a)
  | .cat r s, a =>
    if r.nullable then .alt (.cat (r.deriv a) s) (s.deriv a)
    else .cat (r.deriv a) s
  | .star r, a => .cat (r.deriv a) (.star r)

/-- Whole-string match of a regular expression.  Go's
`matcher.MatchString(name)` (bucket.go:464) searches unanchored, so for a
pattern anchored on both ends, `^R$`, it is exactly whole-string
membership in the language of `R`; the claims' expressions are all of
that form and are given here as the inner `R`. -/
def Regex.matchString (r : Regex) (s : String) : Bool :=
  (s.data.foldl Regex.deriv r).nullable

/-- The regex accepting exactly the given literal string. -/
def strRegex (s : String) : Regex :=
  s.data.foldr (fun c r => Regex.cat (Regex.char c) r) Regex.eps

/-- The compiled form of the claim's expression
`^nightly/.*\.rpm$`: the literal `nightly/`, then any characters, then
the literal `.rpm`. -/
def rpmMatcher : Regex :=
  Regex.cat (strRegex "nightly/")
    (Regex.cat (Regex.star Regex.anyChar) (strRegex ".rpm"))

/-- `DeleteMatching` (bucket.go:447-479): filters the full listing of the
prefix by a whole-key-name regex match and feeds the matching keys to
`deleteGroup`.  The compilation of the expression string is modelled by
taking the compiled `matcher` directly (a compile failure returns early
with no remote call and is outside this model). -/
def Bucket.DeleteMatching (b : Bucket) (delMultiResp : List String → Option String)
    (pages : List (Except String (List String))) (matcher : Regex) :
    Option String × List RemoteCall :=
  let toDelete := (listModel pages).filter fun k => matcher.matchString k
  let r := deleteGroupModel b.dryRun delMultiResp toDelete
  (r.1, r.2.map RemoteCall.delMulti)

/-- The retry loop of `Exists` (bucket.go:263-285): `attempts` is the
list of attempt indices still to run (`[1..numRetries]` at entry, see
`Bucket.existsModel`), and `call i` is the underlying `bucket.Exists`
response on attempt `i`.  A success returns immediately; a failure on
the last attempt returns the error wrapped with that attempt index; a
failure earlier backs off and retries.  The second component counts the
underlying invocations actually made.  If the loop never runs, the Go
zero values `(false, nil)` are returned. -/
def existsLoop (call : Nat → Except String Bool) :
    List Nat → Except (String × Nat) Bool × Nat
  | [] => (.ok false, 0)
  | i :: rest =>
    match call i with
    | .ok v => (.ok v, 1)
    | .error e =>
      if rest.isEmpty then (.error (e, i), 1)
      else
        let r := existsLoop call rest
        (r.1, r.2 + 1)

/-- `Exists` (bucket.go:263-285) on a handle: the loop
`for i := 1; i <= b.numRetries; i++` runs the attempt indices
`[1..numRetries]`. -/
def Bucket.existsModel (b : Bucket) (call : Nat → Except String Bool) :
    Except (String × Nat) Bool × Nat :=
  existsLoop call (List.range' 1 b.numRetries.toNat)

/-- Failure modes of `Put` (bucket.go:293-335): the missing-file check,
the local read, or exhaustion of the retry loop, which reports the
configured attempt count together with every collected per-attempt
error. -/
inductive PutErr where
  | fileNotExist
  | readError (e : String)
  | exhausted (attempts : Nat) (errs : List (String × Nat))
  deriving DecidableEq, Repr

/-- The retry loop of `Put` (bucket.go:311-334): `acc` is the catcher's
collected `(error, attempt)` pairs; when the attempts run out with a
non-empty catcher the operation reports failure in `nRetries` attempts.
Second component counts underlying `bucket.Put` invocations. -/
def putLoop (call : Nat → Option String) (nRetries : Nat)
    (acc : List (String × Nat)) : List Nat → Option PutErr × Nat
  | [] => (if acc.isEmpty then none else some (.exhausted nRetries acc), 0)
  | i :: rest =>
    match call i with
    | none => (none, 1)
    | some e =>
      let r := putLoop call nRetries (acc ++ [(e, i)]) rest
      (r.1, r.2 + 1)

/-- `Put` (bucket.go:293-335): the local stat ( `fileExists` ) and read
(`readRes`) happen first; then the dry-run check logs and returns nil
with no remote call; otherwise the retry loop runs over attempts
`[1..numRetries]`.  MIME resolution affects only the uploaded content
type and is not modelled. -/
def Bucket.putModel (b : Bucket) (fileExists : Bool) (readRes : Except String Unit)
    (call : Nat → Option String) : Option PutErr × Nat :=
  if !fileExists then (some .fileNotExist, 0)
  else
    match readRes with
    | .error e => (some (.readError e), 0)
    | .ok _ =>
      if b.dryRun then (none, 0)
      else putLoop call b.numRetries.toNat [] (List.range' 1 b.numRetries.toNat)

/-- Failure modes of `Get` (bucket.go:355-398): exhaustion of the retry
loop (reporting the configured attempt count and the collected errors),
or a local directory-creation or file-write failure. -/
inductive GetErr where
  | exhausted (attempts : Nat) (errs : List String)
  | mkdirError (e : String)
  | writeError (e : String)
  deriving DecidableEq, Repr

/-- The retry loop of `Get` (bucket.go:362-385): on success the catcher
is reset and the loop breaks with the downloaded bytes; exhaustion
surfaces the collected errors.  If the loop never runs, `data` keeps its
zero value (no bytes) and the empty catcher lets the call proceed.
Second component counts underlying `bucket.Get` invocations. -/
def getLoop (call : Nat → Except String (List Nat)) (acc : List String) :
    List Nat → Except (List String) (List Nat) × Nat
  | [] => (if acc.isEmpty then .ok [] else .error acc, 0)
  | i :: rest =>
    match call i with
    | .ok d => (.ok d, 1)
    | .error e =>
      let r := getLoop call (acc ++ [e]) rest
      (r.1, r.2 + 1)

/-- `Get` (bucket.go:355-398): the retry loop over attempts
`[1..numRetries]`, then directory creation (`mkdirRes`, fatal on error)
and the local write of the downloaded bytes (`writeRes`).  The middle
component is the content written to the local file, `none` when the call
fails before writing. -/
def Bucket.getModel (b : Bucket) (call : Nat → Except String (List Nat))
    (mkdirRes writeRes : Option String) :
    Option GetErr × Option (List Nat) × Nat :=
  match getLoop call [] (List.range' 1 b.numRetries.toNat) with
  | (.error errs, c) => (some (.exhausted b.numRetries.toNat errs), none, c)
  | (.ok d, c) =>
    match mkdirRes with
    | some e => (some (.mkdirError e), none, c)
    | none =>
      match writeRes with
      | some e => (some (.writeError e), none, c)
      | none => (none, some d, c)

/-- Package-format kind of a repository definition (`Distro.Type` in
job.go, values `DEB` and `RPM`; any other value is rejected by `Run`'s
upload-path dispatch, job.go:339-349). -/
inductive PkgType where
  | deb
  | rpm
  | other (t : String)
  deriving DecidableEq, Repr

/-- The version classification consumed by `getPackageLocation`
(job.go:161-172).  Modelled from the spec: the `curator.MongoDBVersion`
type (package `github.com/mongodb/curator`) is not under `src/`; per the
spec, a version is a development (unreleased/nightly) build, a release
candidate, or a GA build belonging to a release series such as `4.2`. -/
structure MongoDBVersion where
  isDevelopmentBuild : Bool
  isReleaseCandidate : Bool
  series : String
  deriving DecidableEq, Repr

/-- Splits a character list on a separator character (groups do not
contain the separator; n separators yield n+1 groups). -/
def splitOnChar (c : Char) : List Char → List (List Char)
  | [] => [[]]
  | a :: rest =>
    let r := splitOnChar c rest
    if a = c then [] :: r
    else
      match r with
      | [] => [[a]]
      | g :: gs => (a :: g) :: gs

/-- Modelled from the spec: the `curator.NewMongoDBVersion` parser is not
under `src/`.  Per the spec's classification and glossary, a version
string is a dotted base optionally followed by a dashed suffix: a suffix
beginning `rc` marks a release candidate (e.g. `4.3.0-rc1`), any other
non-empty suffix marks an unreleased/nightly development build, and the
release series is the first two dotted components of the base (e.g.
`4.2` for `4.2.1`). -/
def NewMongoDBVersion (v : String) : MongoDBVersion :=
  let dashParts := splitOnChar '-' v.data
  let base := dashParts.headD []
  let suffixParts := dashParts.tail
  let rc :=
    match suffixParts with
    | s :: _ => s.take 2 == ['r', 'c']
    | [] => false
  { isReleaseCandidate := rc
    isDevelopmentBuild := !suffixParts.isEmpty && !rc
    series := (List.intercalate ['.'] ((splitOnChar '.' base).take 2)).asString }

/-- `getPackageLocation` (job.go:161-172): development builds sync under
`development`, release candidates under `testing`, and all other (GA)
builds under their release series. -/
def getPackageLocation (release : MongoDBVersion) : String :=
  if release.isDevelopmentBuild then "development"
  else if release.isReleaseCandidate then "testing"
  else release.series

/-- Outcomes of the external collaborators that `Job.Run`
(job.go:253-364) consults, passed in explicitly: whether the top-level
bucket opens, whether the dry-run clone derives and opens, the
configured remote repositories, and the per-repository outcomes of
cloning, directory creation, `SyncFrom`, `injectPackage`, `rebuildRepo`
and `SyncTo` (for the fallible ones, `none`/`.ok` means success). -/
structure RunEnv where
  openOk : Bool
  dryCloneOk : Bool
  dryOpenOk : Bool
  repos : List String
  cloneOk : String → Bool
  mkdirOk : String → Bool
  syncFromRes : String → Option String
  injectRes : String → Except String String
  rebuildRes : String → Option String
  syncToRes : String → Option String

/-- The job state that `Run` mutates: the dry-run flag and package type
from the job's configuration, the completion flag (`job.Base`'s
`IsComplete`, set by `MarkComplete` — see `JobBase.markComplete`,
which sets it to `true` under the job's mutex), and the aggregated,
append-only error list. -/
structure JobState where
  dryRun : Bool
  distroType : PkgType
  isComplete : Bool
  errors : List String
  deriving Repr

/-- Observable ordering events of one `Run` execution: a per-repository
goroutine joining (the `wg.Done`/`wg.Wait` pair) and the deferred
`MarkComplete` firing. -/
inductive RunEvent where
  | joined (repo : String)
  | markedComplete
  deriving DecidableEq, Repr

/-- The body of one per-repository goroutine in `Run` (job.go:300-358):
local directory creation, `SyncFrom` of the package location,
`injectPackage`, `rebuildRepo`, the package-type dispatch for the upload
source (any type other than DEB/RPM is a fatal per-repository error),
then `SyncTo`.  The first failing step's error is appended to the job's
error list and the goroutine returns; `none` means the repository
completed cleanly. -/
def repoPipeline (j : JobState) (env : RunEnv) (remote : String) : Option String :=
  if !env.mkdirOk remote then some s!"creating directory {remote}"
  else
    match env.syncFromRes remote with
    | some e => some s!"sync from {remote}: {e}"
    | none =>
      match env.injectRes remote with
      | .error e => some s!"copying packages into staging repos: {e}"
      | .ok changed =>
        match env.rebuildRes remote with
        | some e => some s!"problem building repo in {changed}: {e}"
        | none =>
          match j.distroType with
          | .other t => some s!"curator does not support uploading {t} repos"
          | _ =>
            match env.syncToRes remote with
            | some e => some s!"problem uploading {remote}: {e}"
            | none => none

/-- `Job.Run` (job.go:253-364).  Failure to open the bucket, to derive
the dry-run clone, or to open the clone records an error and returns
*before* `defer j.MarkComplete()` is registered (job.go:282), so no
completion event fires on those paths.  Otherwise one goroutine runs per
repository whose handle cloned (a clone failure records an error and
`continue`s without spawning), `wg.Wait()` joins them all, and the
deferred `MarkComplete` then fires exactly once.  The goroutines are
sequentialized here in repository order; the error-list order is one
admissible interleaving, and the event trace records each join and the
completion mark in their guaranteed relative order. -/
def RunModel (j : JobState) (env : RunEnv) : JobState × List RunEvent :=
  if !env.openOk then
    ({ j with errors := j.errors ++ ["opening bucket"] }, [])
  else if j.dryRun && !env.dryCloneOk then
    ({ j with errors := j.errors ++ ["problem getting bucket in dry-mode"] }, [])
  else if j.dryRun && !env.dryOpenOk then
    ({ j with errors := j.errors ++ ["opening bucket [dry-run]"] }, [])
  else
    let okRepos := env.repos.filter env.cloneOk
    let cloneErrs := (env.repos.filter fun r => !env.cloneOk r).map
      fun r => s!"problem cloning bucket for {r}"
    let bodyErrs := (okRepos.map (repoPipeline j env)).reduceOption
    ({ j with
        errors := j.errors ++ cloneErrs ++ bodyErrs
        isComplete := true },
      okRepos.map RunEvent.joined ++ [RunEvent.markedComplete])

/-- Syntactic invariant closed under derivatives for regexes that accept
every string: `.*` (`star anyChar`), its derivative
`cat eps (star anyChar)`, and any alternation whose right branch already
satisfies the invariant. -/
inductive AllAcc : Regex → Prop
  | star : AllAcc (Regex.star Regex.anyChar)
  | epsCat : AllAcc (Regex.cat Regex.eps (Regex.star Regex.anyChar))
  | altR (r : Regex) {s : Regex} : AllAcc s → AllAcc (Regex.alt r s)

/-- A live (non-dry-run) handle used for concrete evaluations. -/
def bLive : Bucket :=
  { newFilePermission := "public-read"
    openFlag := true
    dryRun := false
    credentials := { auth := "AKIA-test", region := "us-east-1" }
    name := "repo"
    numJobs := 4
    numRetries := 3 }

/-- The dry-run counterpart of `bLive` (as produced by `DryRunClone`). -/
def bDry : Bucket :=
  { bLive with dryRun := true }

/-- A handle with a non-default retry budget, for the handle-creation
claims. -/
def bFive : Bucket :=
  { newFilePermission := "private"
    openFlag := false
    dryRun := false
    credentials := { auth := "AKIA-src", region := "us-west-2" }
    name := "src-bucket"
    numJobs := 8
    numRetries := 5 }

/-- A live handle with a retry budget of 2, for the retry-bound claims. -/
def bRetry2 : Bucket :=
  { bLive with numRetries := 2 }

/-- A live handle with a retry budget of 0, for the zero-retries claims. -/
def bZero : Bucket :=
  { bLive with numRetries := 0 }

/-- Generated key names `pre ++ "0"`, …, `pre ++ "(n-1)"`, used to build
bucket listings larger than one delete batch. -/
def mkKeys (pre : String) (n : Nat) : List String :=
  (List.range n).map fun i => pre ++ toString i

/-- Generated key names `nightly/p0.rpm`, …, all matching `rpmMatcher`. -/
def mkRpmKeys (n : Nat) : List String :=
  (List.range n).map fun i => "nightly/p" ++ toString i ++ ".rpm"

/-- Underlying-call script: fails on attempt 1, succeeds on attempt 2
(for `Exists`). -/
def callE1w : Nat → Except String Bool :=
  fun i => if i == 2 then .ok true else .error "boom"

/-- Underlying-call script: fails on every attempt (for `Exists`). -/
def callE2w : Nat → Except String Bool :=
  fun _ => .error "boom"

/-- Underlying-call script: fails on attempt 1, succeeds on attempt 2
(for `Put`). -/
def callP1w : Nat → Option String :=
  fun i => if i == 2 then none else some "boom"

/-- Underlying-call script: fails on every attempt (for `Put`). -/
def callP2w : Nat → Option String :=
  fun _ => some "boom"

/-- Underlying-call script: fails on attempt 1, succeeds on attempt 2
(for `Get`). -/
def callG1w : Nat → Except String (List Nat) :=
  fun i => if i == 2 then .ok [7] else .error "boom"

/-- Underlying-call script: fails on every attempt (for `Get`). -/
def callG2w : Nat → Except String (List Nat) :=
  fun _ => .error "boom"

/-- A freshly constructed job: completion flag down, no errors. -/
def jFresh : JobState :=
  { dryRun := false
    distroType := .rpm
    isComplete := false
    errors := [] }

/-- A run environment whose top-level bucket open fails; everything
downstream would succeed. -/
def envOpenFail : RunEnv :=
  { openOk := false
    dryCloneOk := true
    dryOpenOk := true
    repos := ["dist-a"]
    cloneOk := fun _ => true
    mkdirOk := fun _ => true
    syncFromRes := fun _ => none
    injectRes := fun _ => .ok "changed"
    rebuildRes := fun _ => none
    syncToRes := fun _ => none }

/-- The same environment with the bucket open succeeding. -/
def envOpenOk : RunEnv :=
  { envOpenFail with openOk := true }

theorem deleteGroupLoop_dry (dm : List String → Option String) :
    ∀ (items toDelete : List String) (count : Nat),
    deleteGroupLoop true dm toDelete count items = (none, []) := by
  intro items
  induction items with
  | nil =>
    intro toDelete count
    simp only [deleteGroupLoop]
    split_ifs <;> rfl
  | cons k rest ih =>
    intro toDelete count
    simp only [deleteGroupLoop]
    split_ifs with h
    · exact ih [k] 1
    · exact ih (toDelete ++ [k]) (count + 1)

/-- In dry-run mode `deleteGroup` sends no bulk-delete call at all and
returns nil, whatever the keys. -/
theorem deleteGroupModel_dry (dm : List String → Option String) (items : List String) :
    deleteGroupModel true dm items = (none, []) :=
  deleteGroupLoop_dry dm items [] 0

theorem deleteGroupLoop_small (dm : List String → Option String) :
    ∀ (items toDelete : List String) (count : Nat),
    count = toDelete.length → count + items.length ≤ 1000 →
    deleteGroupLoop false dm toDelete count items =
      (if toDelete ++ items = [] then (none, [])
       else (dm (toDelete ++ items), [toDelete ++ items])) := by
  intro items
  induction items with
  | nil =>
    intro toDelete count hc hle
    simp only [deleteGroupLoop, List.append_nil]
    by_cases h1000 : count = 1000
    · have hne : toDelete ≠ [] := by
        intro h
        subst h
        simp at hc
        omega
      simp [h1000, hne]
    · by_cases hemp : toDelete = []
      · simp [hemp, h1000]
      · have : ¬toDelete.isEmpty := by simpa [List.isEmpty_iff] using hemp
        simp [h1000, hemp, this]
  | cons k rest ih =>
    intro toDelete count hc hle
    have h1000 : ¬count = 1000 := by
      simp only [List.length_cons] at hle
      omega
    simp only [deleteGroupLoop, beq_iff_eq, h1000, if_false]
    have := ih (toDelete ++ [k]) (count + 1)
      (by simp [hc]) (by simp only [List.length_cons] at hle; omega)
    rw [this]
    simp

/-- With at most 1000 keys (and not in dry-run mode) `deleteGroup` sends
exactly one bulk-delete call carrying all the keys — none when there are
no keys — and returns that call's result. -/
theorem deleteGroupModel_small (dm : List String → Option String) (items : List String)
    (h : items.length ≤ 1000) :
    deleteGroupModel false dm items =
      (if items = [] then (none, []) else (dm items, [items])) := by
  have := deleteGroupLoop_small dm items [] 0 rfl (by simpa using h)
  simpa [deleteGroupModel] using this

theorem deleteGroupLoop_overflow (dm : List String → Option String) :
    ∀ (items toDelete : List String) (count : Nat),
    count = toDelete.length → count ≤ 1000 → 1000 ≤ count + items.length →
    deleteGroupLoop false dm toDelete count items =
      (dm (toDelete ++ items.take (1000 - count)),
       [toDelete ++ items.take (1000 - count)]) := by
  intro items
  induction items with
  | nil =>
    intro toDelete count hc h1 h2
    have h1000 : count = 1000 := by simp at h2; omega
    simp [deleteGroupLoop, h1000]
  | cons k rest ih =>
    intro toDelete count hc h1 h2
    by_cases h1000 : count = 1000
    · simp [deleteGroupLoop, h1000]
    · have hlt : count < 1000 := by omega
      simp only [deleteGroupLoop, beq_iff_eq, h1000, if_false]
      have := ih (toDelete ++ [k]) (count + 1)
        (by simp [hc]) (by omega) (by simp only [List.length_cons] at h2 ⊢; omega)
      rw [this]
      have htake : 1000 - count = (1000 - (count + 1)) + 1 := by omega
      rw [htake, List.take_succ_cons]
      simp

/-- The batch-size slip of `deleteGroup` (bucket.go:494): outside dry-run
mode, as soon as the first 1000 keys have been accumulated the function
returns the result of that single bulk-delete call; with 1000 or more
keys exactly one call is sent, carrying only the first 1000 keys, and
any remaining keys are never deleted. -/
theorem deleteGroupModel_overflow (dm : List String → Option String) (items : List String)
    (h : 1000 ≤ items.length) :
    deleteGroupModel false dm items = (dm (items.take 1000), [items.take 1000]) := by
  have := deleteGroupLoop_overflow dm items [] 0 rfl (by omega) (by simpa using h)
  simpa [deleteGroupModel] using this

theorem existsLoop_succeeds (call : Nat → Except String Bool) (v : Bool) (m : Nat) :
    ∀ js : List Nat, (∀ j ∈ js, ∃ e, call j = .error e) → call m = .ok v →
    existsLoop call (js ++ [m]) = (.ok v, js.length + 1) := by
  intro js
  induction js with
  | nil =>
    intro _ hs
    simp [existsLoop, hs]
  | cons j js ih =>
    intro hf hs
    obtain ⟨e, he⟩ := hf j (by simp)
    have hne : ¬(js ++ [m]).isEmpty := by simp
    simp only [List.cons_append, existsLoop, he, hne, if_false, Bool.false_eq_true,
      List.append_eq]
    rw [ih (fun x hx => hf x (by simp [hx])) hs]
    simp [Nat.add_comm]

theorem existsLoop_all_fail (call : Nat → Except String Bool) (e : Nat → String) (m : Nat) :
    ∀ js : List Nat, (∀ j ∈ js ++ [m], call j = .error (e j)) →
    existsLoop call (js ++ [m]) = (.error (e m, m), js.length + 1) := by
  intro js
  induction js with
  | nil =>
    intro hf
    have := hf m (by simp)
    simp [existsLoop, this]
  | cons j js ih =>
    intro hf
    have hj := hf j (by simp)
    have hne : ¬(js ++ [m]).isEmpty := by simp
    simp only [List.cons_append, existsLoop, hj, hne, if_false, Bool.false_eq_true,
      List.append_eq]
    rw [ih (fun x hx => hf x (by simp at hx ⊢; tauto))]
    simp [Nat.add_comm]

theorem putLoop_succeeds (call : Nat → Option String) (nR m : Nat) :
    ∀ (js : List Nat) (acc : List (String × Nat)),
    (∀ j ∈ js, ∃ e, call j = some e) → call m = none →
    putLoop call nR acc (js ++ [m]) = (none, js.length + 1) := by
  intro js
  induction js with
  | nil =>
    intro acc _ hs
    simp [putLoop, hs]
  | cons j js ih =>
    intro acc hf hs
    obtain ⟨e, he⟩ := hf j (by simp)
    simp only [List.cons_append, putLoop, he, List.append_eq]
    rw [ih (acc ++ [(e, j)]) (fun x hx => hf x (by simp [hx])) hs]
    simp [Nat.add_comm]

theorem putLoop_all_fail (call : Nat → Option String) (nR m : Nat) :
    ∀ (js : List Nat) (acc : List (String × Nat)),
    (∀ j ∈ js ++ [m], ∃ e, call j = some e) →
    ∃ errs, putLoop call nR acc (js ++ [m]) = (some (.exhausted nR errs), js.length + 1) := by
  intro js
  induction js with
  | nil =>
    intro acc hf
    obtain ⟨e, he⟩ := hf m (by simp)
    exact ⟨acc ++ [(e, m)], by simp [putLoop, he]⟩
  | cons j js ih =>
    intro acc hf
    obtain ⟨e, he⟩ := hf j (by simp)
    obtain ⟨errs, herrs⟩ := ih (acc ++ [(e, j)]) (fun x hx => hf x (by simp at hx ⊢; tauto))
    refine ⟨errs, ?_⟩
    simp only [List.cons_append, putLoop, he, List.append_eq]
    rw [herrs]
    simp [Nat.add_comm]

theorem getLoop_succeeds (call : Nat → Except String (List Nat)) (d : List Nat) (m : Nat) :
    ∀ (js : List Nat) (acc : List String),
    (∀ j ∈ js, ∃ e, call j = .error e) → call m = .ok d →
    getLoop call acc (js ++ [m]) = (.ok d, js.length + 1) := by
  intro js
  induction js with
  | nil =>
    intro acc _ hs
    simp [getLoop, hs]
  | cons j js ih =>
    intro acc hf hs
    obtain ⟨e, he⟩ := hf j (by simp)
    simp only [List.cons_append, getLoop, he, List.append_eq]
    rw [ih (acc ++ [e]) (fun x hx => hf x (by simp [hx])) hs]
    simp [Nat.add_comm]

theorem getLoop_all_fail (call : Nat → Except String (List Nat)) (m : Nat) :
    ∀ (js : List Nat) (acc : List String),
    (∀ j ∈ js ++ [m], ∃ e, call j = .error e) →
    ∃ errs, getLoop call acc (js ++ [m]) = (.error errs, js.length + 1) := by
  intro js
  induction js with
  | nil =>
    intro acc hf
    obtain ⟨e, he⟩ := hf m (by simp)
    exact ⟨acc ++ [e], by simp [getLoop, he]⟩
  | cons j js ih =>
    intro acc hf
    obtain ⟨e, he⟩ := hf j (by simp)
    obtain ⟨errs, herrs⟩ := ih (acc ++ [e]) (fun x hx => hf x (by simp at hx ⊢; tauto))
    refine ⟨errs, ?_⟩
    simp only [List.cons_append, getLoop, he, List.append_eq]
    rw [herrs]
    simp [Nat.add_comm]

/-- The attempt-index list `[1..n]` for `n ≥ 1`, split at its last
attempt. -/
theorem range'_split_last (n : Nat) (h : 1 ≤ n) :
    List.range' 1 n = List.range' 1 (n - 1) ++ [n] := by
  obtain ⟨k, rfl⟩ : ∃ k, n = k + 1 := ⟨n - 1, by omega⟩
  rw [List.range'_concat]
  simp [Nat.add_comm]

theorem AllAcc.nullable_eq {r : Regex} (h : AllAcc r) : r.nullable = true := by
  induction h with
  | star => rfl
  | epsCat => rfl
  | altR r _ ih => simp [Regex.nullable, ih]

theorem AllAcc.deriv_mem {r : Regex} (h : AllAcc r) (c : Char) : AllAcc (r.deriv c) := by
  induction h with
  | star => exact .epsCat
  | epsCat => exact .altR _ .epsCat
  | altR r _ ih => exact .altR _ ih

/-- The regex `.*` (star of any-char) accepts every string. -/
theorem starAny_matches (s : String) :
    (Regex.star Regex.anyChar).matchString s = true := by
  suffices h : ∀ (cs : List Char) (r : Regex), AllAcc r →
      (cs.foldl Regex.deriv r).nullable = true by
    exact h s.data _ .star
  intro cs
  induction cs with
  | nil => exact fun r hr => hr.nullable_eq
  | cons c cs ih => exact fun r hr => ih _ (hr.deriv_mem c)

/-- C1: in dry-run mode, `Delete` still issues the underlying single-key
`Del` remote call (the flag is never consulted in `Delete`,
bucket.go:400-405), contradicting the claim (and `DryRunClone`'s own doc
comment) that no mutating remote call is issued; the remaining
operations do honor the flag: dry-run `Put` and `DeleteMany` and
`DeleteMatching` issue no remote mutation, and `Exists`/`Get` behave
exactly as on the live handle. -/
theorem c1_dry_run_delete_still_calls_remote :
    bDry.dryRun = true ∧
    (bDry.Delete (fun _ => none) "nightly/a.rpm").2 = [RemoteCall.del "nightly/a.rpm"] ∧
    bDry.putModel true (.ok ()) callP2w = (none, 0) ∧
    bDry.DeleteMany ["a"] (fun _ => none) (fun _ => none) ["a"] = (none, []) ∧
    (bDry.DeleteMany ["a", "b"] (fun _ => none) (fun _ => none) ["a", "b"]).2 = [] ∧
    (bDry.DeleteMatching (fun _ => none) [Except.ok ["nightly/a.rpm"]] rpmMatcher).2 = [] ∧
    bDry.existsModel callE2w = bLive.existsModel callE2w ∧
    bDry.getModel callG1w none none = bLive.getModel callG1w none none :=
  ⟨rfl, rfl, rfl, rfl, rfl, rfl, rfl, rfl⟩

/-- C2: the batch-delete claim fails on the code: when the listing holds
more than 1000 keys, a non-dry-run `DeletePrefix` issues exactly one
bulk-delete call — not ⌈K/1000⌉ — carrying only the first 1000 keys, and
returns that call's result, leaving the remaining keys undeleted
(`deleteGroup`'s early return, bucket.go:494). -/
theorem c2_bulk_delete_truncated_at_first_batch (b : Bucket)
    (dm : List String → Option String) (pages : List (Except String (List String)))
    (hdry : b.dryRun = false) (h : 1000 < (listModel pages).length) :
    b.DeletePrefix dm pages =
      (dm ((listModel pages).take 1000),
       [RemoteCall.delMulti ((listModel pages).take 1000)]) ∧
    ((listModel pages).take 1000).length = 1000 ∧
    (listModel pages).take 1000 ≠ listModel pages := by
  have hov := deleteGroupModel_overflow dm (listModel pages) (by omega)
  refine ⟨?_, ?_, ?_⟩
  · simp [Bucket.DeletePrefix, hdry, hov]
  · simp [List.length_take]
    omega
  · intro heq
    have := congrArg List.length heq
    simp [List.length_take] at this
    omega

/-- Witness for C2: a listing of the 1001 keys `k0`, …, `k1000`. -/
theorem c2_bulk_delete_truncated_at_first_batch_witness :
    bLive.dryRun = false ∧
    1000 < (listModel [Except.ok (mkKeys "k" 1001)]).length ∧
    (bLive.DeletePrefix (fun _ => none) [Except.ok (mkKeys "k" 1001)]).2 =
      [RemoteCall.delMulti ((listModel [Except.ok (mkKeys "k" 1001)]).take 1000)] := by
  have h1 : bLive.dryRun = false := rfl
  have h2 : 1000 < (listModel [Except.ok (mkKeys "k" 1001)]).length := by
    simp [listModel, mkKeys]
  refine ⟨h1, h2, ?_⟩
  rw [(c2_bulk_delete_truncated_at_first_batch bLive (fun _ => none) _ h1 h2).1]

/-- C4 counterexample: the underlying `List` call fails on the second
page of a `DeletePrefix` listing, yet `DeletePrefix` returns no error at
all — it just deletes the keys of the first page (the failure is only
logged inside `list`, bucket.go:229-232). -/
theorem c4_list_failure_not_reflected :
    bLive.DeletePrefix (fun _ => none)
        [Except.ok ["nightly/a.rpm"], Except.error "connection reset"] =
      (none, [RemoteCall.delMulti ["nightly/a.rpm"]]) := by
  decide

theorem listModel_truncates (err : String) (rest : List (Except String (List String))) :
    ∀ good, (∀ pg ∈ good, ∃ ks, pg = .ok ks) →
    listModel (good ++ .error err :: rest) = listModel good := by
  intro good
  induction good with
  | nil => intro _; rfl
  | cons pg good ih =>
    intro hgood
    obtain ⟨ks, rfl⟩ := hgood pg (by simp)
    simp only [List.cons_append, listModel, List.append_eq]
    rw [ih fun x hx => hgood x (by simp [hx])]

/-- C4 (amended): a failure of the underlying `List` call during the
listing is only logged: the listing is truncated at the failed page, the
error page and everything after it are discarded, and the operation
behaves exactly as if the store had reported the truncated listing —
the returned error reflects only the delete calls themselves, never the
listing failure. -/
theorem c4_list_failure_only_truncates (b : Bucket) (dm : List String → Option String)
    (good : List (Except String (List String))) (err : String)
    (rest : List (Except String (List String)))
    (hgood : ∀ pg ∈ good, ∃ ks, pg = .ok ks) :
    listModel (good ++ .error err :: rest) = listModel good ∧
    b.DeletePrefix dm (good ++ .error err :: rest) = b.DeletePrefix dm good := by
  have hl := listModel_truncates err rest good hgood
  exact ⟨hl, by simp [Bucket.DeletePrefix, hl]⟩

/-- Witness for C4 (amended): one good page, then a failed page. -/
theorem c4_list_failure_only_truncates_witness :
    (∀ pg ∈ ([Except.ok ["a"]] : List (Except String (List String))), ∃ ks, pg = Except.ok ks) ∧
    listModel ([Except.ok ["a"]] ++ .error "boom" :: []) = listModel [Except.ok ["a"]] ∧
    bLive.DeletePrefix (fun _ => none) ([Except.ok ["a"]] ++ .error "boom" :: []) =
      bLive.DeletePrefix (fun _ => none) [Except.ok ["a"]] := by
  have hg : ∀ pg ∈ ([Except.ok ["a"]] : List (Except String (List String))), ∃ ks, pg = Except.ok ks := by
    intro pg hpg
    simp at hpg
    exact ⟨["a"], hpg⟩
  have h := c4_list_failure_only_truncates bLive (fun _ => none) [Except.ok ["a"]] "boom" [] hg
  exact ⟨hg, h.1, h.2⟩

/-- C8 counterexample: deriving a handle through the `NewBucket` factory
from a source whose retry count is 5 yields a handle whose retry count
is the hardcoded default 20, not the source's (bucket.go:87). -/
theorem c8_new_bucket_resets_retries :
    (bFive.NewBucket "derived").numRetries ≠ bFive.numRetries := by
  decide

/-- C8 (amended): `NewBucket` copies credentials, write permission and
job count but resets the retry count to the default 20 (and the result
starts closed); `Clone` copies credentials, permission, job count *and*
retry count, and its result is open exactly when the source was open;
`DryRunClone` is `Clone` plus the dry-run flag. -/
theorem c8_handle_creation_fields (b : Bucket) (nm : String) :
    (b.NewBucket nm).credentials = b.credentials ∧
    (b.NewBucket nm).newFilePermission = b.newFilePermission ∧
    (b.NewBucket nm).numJobs = b.numJobs ∧
    (b.NewBucket nm).numRetries = 20 ∧
    (b.NewBucket nm).name = nm ∧
    (b.NewBucket nm).openFlag = false ∧
    b.Clone.credentials = b.credentials ∧
    b.Clone.newFilePermission = b.newFilePermission ∧
    b.Clone.numJobs = b.numJobs ∧
    b.Clone.numRetries = b.numRetries ∧
    b.Clone.name = b.name ∧
    b.Clone.openFlag = b.openFlag ∧
    b.DryRunClone.dryRun = true ∧
    b.DryRunClone.numRetries = b.numRetries := by
  cases hb : b.openFlag <;>
    simp [Bucket.NewBucket, Bucket.Clone, Bucket.DryRunClone, Bucket.Open, hb]

/-- Witness for C8 (amended) at the concrete handle `bFive`. -/
theorem c8_handle_creation_fields_witness :
    (bFive.NewBucket "derived").numRetries = 20 ∧
    bFive.Clone.numRetries = bFive.numRetries ∧
    bFive.Clone.openFlag = bFive.openFlag := by
  obtain ⟨h1, h2, h3, h4, h5, h6, h7, h8, h9, h10, h11, h12, h13, h14⟩ :=
    c8_handle_creation_fields bFive "derived"
  exact ⟨h4, h10, h12⟩

/-- C3: for a retry bound N ≥ 1, each of `Exists`, `Put` and `Get` whose
underlying call fails on the first N−1 attempts and succeeds on the Nth
returns success after exactly N underlying invocations; one whose
underlying call fails on all N attempts returns an error citing N
attempts (`Exists` wraps the last error with attempt index N, `Put` and
`Get` report failure "in N attempts"), again after exactly N
invocations. -/
theorem c3_retry_bound (b : Bucket) (n : Nat) (hn : 1 ≤ n)
    (hb : b.numRetries = (n : Int)) (hdry : b.dryRun = false)
    (callE1 : Nat → Except String Bool) (v : Bool)
    (callE2 : Nat → Except String Bool) (eE : Nat → String)
    (callP1 callP2 : Nat → Option String)
    (callG1 callG2 : Nat → Except String (List Nat)) (d : List Nat)
    (hE1f : ∀ j, 1 ≤ j → j < n → ∃ e, callE1 j = .error e) (hE1s : callE1 n = .ok v)
    (hE2 : ∀ j, 1 ≤ j → j ≤ n → callE2 j = .error (eE j))
    (hP1f : ∀ j, 1 ≤ j → j < n → ∃ e, callP1 j = some e) (hP1s : callP1 n = none)
    (hP2 : ∀ j, 1 ≤ j → j ≤ n → ∃ e, callP2 j = some e)
    (hG1f : ∀ j, 1 ≤ j → j < n → ∃ e, callG1 j = .error e) (hG1s : callG1 n = .ok d)
    (hG2 : ∀ j, 1 ≤ j → j ≤ n → ∃ e, callG2 j = .error e) :
    b.existsModel callE1 = (.ok v, n) ∧
    b.existsModel callE2 = (.error (eE n, n), n) ∧
    b.putModel true (.ok ()) callP1 = (none, n) ∧
    (∃ errs, b.putModel true (.ok ()) callP2 = (some (.exhausted n errs), n)) ∧
    b.getModel callG1 none none = (none, some d, n) ∧
    (∃ errs, b.getModel callG2 none none = (some (.exhausted n errs), none, n)) := by
  have htn : b.numRetries.toNat = n := by rw [hb]; simp
  have hsplit : List.range' 1 n = List.range' 1 (n - 1) ++ [n] := range'_split_last n hn
  have hlen : (List.range' 1 (n - 1)).length = n - 1 := List.length_range' 1 1 (n - 1)
  have hmem : ∀ j ∈ List.range' 1 (n - 1), 1 ≤ j ∧ j < n := by
    intro j hj
    rw [List.mem_range'_1] at hj
    omega
  have hpair : n - 1 + 1 = n := by omega
  have hE2' : ∀ j ∈ List.range' 1 (n - 1) ++ [n], callE2 j = .error (eE j) := by
    intro j hj
    rcases List.mem_append.mp hj with h | h
    · exact hE2 j (hmem j h).1 (le_of_lt (hmem j h).2)
    · have hjn : j = n := by simpa using h
      subst hjn
      exact hE2 j hn le_rfl
  have hP2' : ∀ j ∈ List.range' 1 (n - 1) ++ [n], ∃ e, callP2 j = some e := by
    intro j hj
    rcases List.mem_append.mp hj with h | h
    · exact hP2 j (hmem j h).1 (le_of_lt (hmem j h).2)
    · have hjn : j = n := by simpa using h
      subst hjn
      exact hP2 j hn le_rfl
  have hG2' : ∀ j ∈ List.range' 1 (n - 1) ++ [n], ∃ e, callG2 j = .error e := by
    intro j hj
    rcases List.mem_append.mp hj with h | h
    · exact hG2 j (hmem j h).1 (le_of_lt (hmem j h).2)
    · have hjn : j = n := by simpa using h
      subst hjn
      exact hG2 j hn le_rfl
  refine ⟨?_, ?_, ?_, ?_, ?_, ?_⟩
  · simp only [Bucket.existsModel, htn]
    rw [hsplit, existsLoop_succeeds callE1 v n _
        (fun j hj => hE1f j (hmem j hj).1 (hmem j hj).2) hE1s, hlen, hpair]
  · simp only [Bucket.existsModel, htn]
    rw [hsplit, existsLoop_all_fail callE2 eE n _ hE2', hlen, hpair]
  · simp only [Bucket.putModel, hdry, Bool.not_true, Bool.false_eq_true, if_false, htn]
    rw [hsplit, putLoop_succeeds callP1 n n _ []
        (fun j hj => hP1f j (hmem j hj).1 (hmem j hj).2) hP1s, hlen, hpair]
  · obtain ⟨errs, herrs⟩ := putLoop_all_fail callP2 n n (List.range' 1 (n - 1)) [] hP2'
    refine ⟨errs, ?_⟩
    simp only [Bucket.putModel, hdry, Bool.not_true, Bool.false_eq_true, if_false, htn]
    rw [hsplit, herrs, hlen, hpair]
  · simp only [Bucket.getModel, htn]
    rw [hsplit, getLoop_succeeds callG1 d n _ []
        (fun j hj => hG1f j (hmem j hj).1 (hmem j hj).2) hG1s]
    simp [hlen, hpair]
  · obtain ⟨errs, herrs⟩ := getLoop_all_fail callG2 n (List.range' 1 (n - 1)) [] hG2'
    refine ⟨errs, ?_⟩
    simp only [Bucket.getModel, htn]
    rw [hsplit, herrs]
    simp [hlen, hpair]

/-- Witness for C3 at N = 2: the scripted calls fail once then succeed,
or fail twice. -/
theorem c3_retry_bound_witness :
    bRetry2.existsModel callE1w = (.ok true, 2) ∧
    bRetry2.existsModel callE2w = (.error ("boom", 2), 2) ∧
    bRetry2.putModel true (.ok ()) callP1w = (none, 2) ∧
    (∃ errs, bRetry2.putModel true (.ok ()) callP2w = (some (.exhausted 2 errs), 2)) ∧
    bRetry2.getModel callG1w none none = (none, some [7], 2) ∧
    (∃ errs, bRetry2.getModel callG2w none none = (some (.exhausted 2 errs), none, 2)) := by
  exact c3_retry_bound bRetry2 2 (by omega) rfl rfl callE1w true callE2w (fun _ => "boom")
    callP1w callP2w callG1w callG2w [7]
    (fun j h1 h2 => ⟨"boom", by
      have hj : j = 1 := by omega
      subst hj
      rfl⟩)
    rfl
    (fun j _ _ => rfl)
    (fun j h1 h2 => ⟨"boom", by
      have hj : j = 1 := by omega
      subst hj
      rfl⟩)
    rfl
    (fun j _ _ => ⟨"boom", rfl⟩)
    (fun j h1 h2 => ⟨"boom", by
      have hj : j = 1 := by omega
      subst hj
      rfl⟩)
    rfl
    (fun j _ _ => ⟨"boom", rfl⟩)

/-- C9: `SetNumRetries` accepts 0 and rejects only negative values
(despite its message), and on a handle whose retry count is 0 the
retried operations make zero underlying remote calls yet report
success: `Exists` returns `(false, nil)`, `Put` returns nil without
uploading, and `Get` returns nil after writing an empty local file. -/
theorem c9_zero_retries (b : Bucket) (m : Int)
    (hz : b.numRetries = 0) (hdry : b.dryRun = false) (hneg : m < 0)
    (callE : Nat → Except String Bool) (callP : Nat → Option String)
    (callG : Nat → Except String (List Nat)) :
    b.SetNumRetries 0 = .ok { b with numRetries := 0 } ∧
    b.SetNumRetries m = .error s!"numRetries={m}, must be larger than 0" ∧
    b.existsModel callE = (.ok false, 0) ∧
    b.putModel true (.ok ()) callP = (none, 0) ∧
    b.getModel callG none none = (none, some [], 0) := by
  have htn : b.numRetries.toNat = 0 := by rw [hz]; rfl
  refine ⟨?_, ?_, ?_, ?_, ?_⟩
  · simp [Bucket.SetNumRetries]
  · simp [Bucket.SetNumRetries, hneg]
  · simp [Bucket.existsModel, htn, existsLoop]
  · simp [Bucket.putModel, hdry, htn, putLoop]
  · simp [Bucket.getModel, htn, getLoop]

/-- Witness for C9 at the concrete zero-retry handle `bZero`. -/
theorem c9_zero_retries_witness :
    bZero.SetNumRetries 0 = .ok { bZero with numRetries := 0 } ∧
    bZero.SetNumRetries (-1) = .error "numRetries=-1, must be larger than 0" ∧
    bZero.existsModel callE2w = (.ok false, 0) ∧
    bZero.putModel true (.ok ()) callP2w = (none, 0) ∧
    bZero.getModel callG2w none none = (none, some [], 0) := by
  exact c9_zero_retries bZero (-1) rfl rfl (by norm_num) callE2w callP2w callG2w

/-- C5 counterexample: when opening the top-level bucket fails, `Run`
records the error and returns before `defer j.MarkComplete()` is ever
registered (job.go:255-259 precede job.go:282), so the completion flag
never transitions to true — contradicting the claim that it does so
"whatever the outcome (including failure to open the store handle)". -/
theorem c5_open_failure_leaves_flag_down :
    (RunModel jFresh envOpenFail).1.isComplete = false ∧
    (RunModel jFresh envOpenFail).2.count RunEvent.markedComplete = 0 :=
  ⟨rfl, rfl⟩

/-- C5 (amended): on every run that gets past opening the bucket (and,
when dry-run is requested, past deriving and opening the dry-run clone),
the completion flag transitions false → true exactly once, and only
after every per-repository goroutine has joined — the event trace is
exactly the joins followed by the single completion mark; on a run where
the open fails, `Run` returns with the flag still false and no
completion event. -/
theorem c5_completion_flag (j : JobState) (env : RunEnv)
    (hstart : j.isComplete = false) :
    (env.openOk = true →
      (j.dryRun = true → env.dryCloneOk = true ∧ env.dryOpenOk = true) →
      (RunModel j env).1.isComplete = true ∧
      (RunModel j env).2 =
        (env.repos.filter env.cloneOk).map RunEvent.joined ++ [RunEvent.markedComplete] ∧
      (RunModel j env).2.count RunEvent.markedComplete = 1) ∧
    (env.openOk = false →
      (RunModel j env).1.isComplete = false ∧ (RunModel j env).2 = []) := by
  constructor
  · intro hopen hdry
    have h1 : (!env.openOk) = false := by simp [hopen]
    have h2 : (j.dryRun && !env.dryCloneOk) = false := by
      cases hd : j.dryRun
      · simp
      · simp [(hdry hd).1]
    have h3 : (j.dryRun && !env.dryOpenOk) = false := by
      cases hd : j.dryRun
      · simp
      · simp [(hdry hd).2]
    have hz : ((env.repos.filter env.cloneOk).map RunEvent.joined).count
        RunEvent.markedComplete = 0 := by
      rw [List.count_eq_zero]
      simp
    simp [RunModel, h1, h2, h3, List.count_append, hz]
  · intro hopen
    simp [RunModel, hopen, hstart]

/-- Witness for C5 (amended): the open succeeds and the single
repository joins before the completion mark. -/
theorem c5_completion_flag_witness :
    jFresh.isComplete = false ∧ envOpenOk.openOk = true ∧
    (RunModel jFresh envOpenOk).1.isComplete = true ∧
    (RunModel jFresh envOpenOk).2 =
      (envOpenOk.repos.filter envOpenOk.cloneOk).map RunEvent.joined ++
        [RunEvent.markedComplete] ∧
    (RunModel jFresh envOpenOk).2.count RunEvent.markedComplete = 1 := by
  have h := (c5_completion_flag jFresh envOpenOk rfl).1 rfl
    (fun hd => absurd hd (by decide))
  exact ⟨rfl, rfl, h.1, h.2.1, h.2.2⟩

/-- C6: the remote package subtree is `development` for development
(unreleased/nightly) builds, `testing` for release candidates, and the
release series name otherwise; concretely `4.3.0-rc1` selects `testing`
and GA `4.2.1` selects `4.2` (`getPackageLocation`, job.go:161-172, over
the spec-modelled version classification). -/
theorem c6_package_location (v : MongoDBVersion) :
    (v.isDevelopmentBuild = true → getPackageLocation v = "development") ∧
    (v.isDevelopmentBuild = false → v.isReleaseCandidate = true →
      getPackageLocation v = "testing") ∧
    (v.isDevelopmentBuild = false → v.isReleaseCandidate = false →
      getPackageLocation v = v.series) ∧
    getPackageLocation (NewMongoDBVersion "4.3.0-rc1") = "testing" ∧
    getPackageLocation (NewMongoDBVersion "4.2.1") = "4.2" := by
  refine ⟨?_, ?_, ?_, by decide, by decide⟩
  · intro h
    simp [getPackageLocation, h]
  · intro h1 h2
    simp [getPackageLocation, h1, h2]
  · intro h1 h2
    simp [getPackageLocation, h1, h2]

/-- Witness for C6 at the GA version `4.2.1`. -/
theorem c6_package_location_witness :
    (NewMongoDBVersion "4.2.1").isDevelopmentBuild = false ∧
    (NewMongoDBVersion "4.2.1").isReleaseCandidate = false ∧
    getPackageLocation (NewMongoDBVersion "4.2.1") = (NewMongoDBVersion "4.2.1").series := by
  refine ⟨by decide, by decide, ?_⟩
  exact (c6_package_location (NewMongoDBVersion "4.2.1")).2.2.1 (by decide) (by decide)

/-- C7: on the claim's concrete bucket, `DeleteMatching` with the
`^nightly/.*\.rpm$` matcher deletes exactly `nightly/a.rpm` (one bulk
call carrying just that key); but the claim's universal statement fails
on the code: with 1001 keys all matching the expression, the single bulk
call carries only the first 1000 matching keys (`deleteGroup`'s early
return, bucket.go:494) so a matching key is never deleted. -/
theorem c7_delete_matching_scenario_and_truncation :
    bLive.DeleteMatching (fun _ => none)
        [Except.ok ["nightly/a.rpm", "nightly/a.rpm.sig", "nightly/notes.txt"]] rpmMatcher =
      (none, [RemoteCall.delMulti ["nightly/a.rpm"]]) ∧
    (bLive.DeleteMatching (fun _ => none) [Except.ok (mkKeys "nightly/p" 1001)]
        (Regex.star Regex.anyChar)).2 =
      [RemoteCall.delMulti ((mkKeys "nightly/p" 1001).take 1000)] ∧
    (mkKeys "nightly/p" 1001).take 1000 ≠ mkKeys "nightly/p" 1001 := by
  refine ⟨by decide, ?_, ?_⟩
  · have hdry : bLive.dryRun = false := rfl
    have hlist : listModel [Except.ok (mkKeys "nightly/p" 1001)] = mkKeys "nightly/p" 1001 := by
      simp [listModel]
    have hfilter : (mkKeys "nightly/p" 1001).filter
        (fun k => (Regex.star Regex.anyChar).matchString k) = mkKeys "nightly/p" 1001 :=
      List.filter_eq_self.mpr fun a _ => starAny_matches a
    have hlen : 1000 ≤ (mkKeys "nightly/p" 1001).length := by simp [mkKeys]
    simp only [Bucket.DeleteMatching, hdry, hlist, hfilter,
      deleteGroupModel_overflow _ _ hlen]
    simp
  · intro h
    have hl := congrArg List.length h
    rw [List.length_take] at hl
    simp only [mkKeys, List.length_map, List.length_range] at hl
    omega

/-- C10 counterexample: with 1001 requested paths all present in the
bucket, `DeleteMany` does not delete the full intersection of the
requested paths and the bucket's keys — it sends a single bulk call with
only the first 1000 of them (`deleteGroup`'s early return). -/
theorem c10_intersection_not_all_deleted :
    (bLive.DeleteMany (mkKeys "p" 1001) (fun _ => none) (fun _ => none)
        (mkKeys "p" 1001)).2 =
      [RemoteCall.delMulti ((mkKeys "p" 1001).take 1000)] ∧
    (mkKeys "p" 1001).take 1000 ≠
      (mkKeys "p" 1001).filter fun q => (mkKeys "p" 1001).elem q := by
  have hfilter : ((mkKeys "p" 1001).filter fun q => (mkKeys "p" 1001).elem q) =
      mkKeys "p" 1001 :=
    List.filter_eq_self.mpr fun a ha => List.elem_iff.mpr ha
  have hb : ¬((mkKeys "p" 1001).length == 1) = true := by simp [mkKeys]
  have hdry : bLive.dryRun = false := rfl
  have hlen : 1000 ≤ (mkKeys "p" 1001).length := by simp [mkKeys]
  constructor
  · simp only [Bucket.DeleteMany]
    rw [if_neg hb]
    simp only [hdry, hfilter, deleteGroupModel_overflow _ _ hlen]
    simp
  · rw [hfilter]
    intro h
    have hl := congrArg List.length h
    rw [List.length_take] at hl
    simp only [mkKeys, List.length_map, List.length_range] at hl
    omega

/-- C10 (amended): a multi-path `DeleteMany` (not in dry-run mode)
silently skips, with only a logged warning and no returned error, every
requested path absent from the bucket's listing, and — provided the
present paths number at most 1000 — sends exactly one bulk call deleting
exactly the intersection of the requested paths and the bucket's keys
(none when the intersection is empty); with exactly one path the listing
is bypassed and the single-key delete is issued directly, present or
not. -/
theorem c10_delete_many_behavior (b : Bucket) (store : List String)
    (dresp : String → Option String) (dm : List String → Option String)
    (paths : List String) (p : String)
    (hdry : b.dryRun = false) (hlen : paths.length ≠ 1)
    (hsmall : (paths.filter fun q => store.elem q).length ≤ 1000)
    (hdm : ∀ ks, dm ks = none) :
    b.DeleteMany store dresp dm paths =
      (none,
       if (paths.filter fun q => store.elem q) = [] then []
       else [RemoteCall.delMulti (paths.filter fun q => store.elem q)]) ∧
    b.DeleteMany store dresp dm [p] =
      ((dresp p).map fun e => s!"deleting {p} from {b.name}: {e}",
        [RemoteCall.del p]) := by
  constructor
  · have hb : ¬(paths.length == 1) = true := by simpa using hlen
    simp only [Bucket.DeleteMany]
    rw [if_neg hb]
    rw [hdry, deleteGroupModel_small dm _ hsmall]
    split_ifs with hemp
    · rfl
    · simp [hdm]
  · simp [Bucket.DeleteMany, hdry, Bucket.Delete]

/-- Witness for C10 (amended): the missing path `zz` is skipped without
an error, the present paths are deleted, and a single path is deleted
directly. -/
theorem c10_delete_many_behavior_witness :
    bLive.DeleteMany ["a", "b"] (fun _ => none) (fun _ => none) ["a", "zz", "b"] =
      (none, [RemoteCall.delMulti ["a", "b"]]) ∧
    bLive.DeleteMany ["a", "b"] (fun _ => none) (fun _ => none) ["solo"] =
      (none, [RemoteCall.del "solo"]) := by
  have h := c10_delete_many_behavior bLive ["a", "b"] (fun _ => none) (fun _ => none)
    ["a", "zz", "b"] "solo" rfl (by decide) (by decide) (fun _ => rfl)
  exact ⟨h.1.trans (by decide), h.2.trans (by decide)⟩

end Curator
